import Mathlib

/-!
Verification of the facemesh orchestration and postprocessing layer
(`src/facemesh/src/index.ts`).

The layer is shallowly embedded: JS numbers become exact rationals (all
arithmetic performed by the functions under study is exact), tensor buffers
become `Buf` values carrying an identity and their numeric payload, and the
tensor runtime's allocation/disposal bookkeeping becomes an explicit
`TState` threaded through the functions.  The external collaborators
(`pipeline.ts`, `keypoints.ts`, the tensor runtime) are not under `src/`;
where their behaviour matters it is modelled from the spec and said so in
the doc comment.
-/

namespace Facemesh

/-- A 2-D coordinate; exact rationals stand for JS numbers. -/
structure Point where
  x : ℚ
  y : ℚ
deriving DecidableEq, Repr

attribute [ext] Point

/-- A live tensor buffer: an identity plus the numeric payload it holds. -/
structure Buf (α : Type) where
  id : Nat
  val : α
deriving DecidableEq, Repr

/-- Tensor-runtime bookkeeping: the next fresh buffer id and the ids on which
`dispose` has been invoked so far (most recent first). -/
structure TState where
  nextId : Nat
  disposed : List Nat
deriving DecidableEq, Repr

/-- Allocate a fresh buffer holding `v`. -/
def TState.alloc {α : Type} (s : TState) (v : α) : Buf α × TState :=
  (⟨s.nextId, v⟩, ⟨s.nextId + 1, s.disposed⟩)

/-- `b.dispose()`: record the release of buffer `b`. -/
def TState.dispose {α : Type} (s : TState) (b : Buf α) : TState :=
  ⟨s.nextId, b.id :: s.disposed⟩

/-- The plain-array-typed variant of the source's `AnnotatedPrediction`
(`index.ts` lines 28-38): `faceInViewConfidence : number`, corner points and
meshes as plain arrays, plus the optional `annotations` map (kept as an
ordered association list, JS object keys being insertion-ordered). -/
structure ArrFace where
  faceInViewConfidence : ℚ
  topLeft : Point
  bottomRight : Point
  mesh : List Point
  scaledMesh : List Point
  annotations : Option (List (String × List Point))
deriving DecidableEq, Repr

/-- The buffer-typed variant of `AnnotatedPrediction`: `faceInViewConfidence :
tf.Scalar` and tensor-typed corners and meshes.  The source never attaches an
`annotations` field to this variant. -/
structure TensFace where
  faceInViewConfidence : Buf ℚ
  topLeft : Buf Point
  bottomRight : Buf Point
  mesh : Buf (List Point)
  scaledMesh : Buf (List Point)
deriving DecidableEq, Repr

/-- `AnnotatedPrediction` (`index.ts` lines 28-38).  The source uses a
per-field union (`number[][] | tf.Tensor2D` etc.); both construction sites
(lines 179-187 and 207-215) and `flipFaceHorizontal` are tag-consistent
(the branch on `face.mesh instanceof tf.Tensor` casts every other field to
the matching side), so the union is embedded as a single top-level tag. -/
inductive AnnotatedPrediction where
  | arr : ArrFace → AnnotatedPrediction
  | tens : TensFace → AnnotatedPrediction
deriving DecidableEq, Repr

/-- `flipFaceHorizontal` (`index.ts` lines 47-90).

Tensor branch (lines 49-70): each corner buffer holds one 2-D point;
`slice(0, 1)` / `slice(1, 1)` select its x / y component, and
`concat([sub(imageWidth - 1, xPart), yPart])` rebuilds the corner, a fresh
buffer.  The mesh arithmetic is the source's broadcasting
`sub(tensor1d([imageWidth - 1, 0]), mesh).mul(tensor1d([1, -1]))`, i.e.
pointwise `((imageWidth - 1 - x) * 1, (0 - y) * (-1))`, again fresh buffers
(intermediate op outputs that the source drops on the floor are not tracked;
only the buffers embedded in the returned face are).

Array branch (lines 72-90): plain per-point arithmetic, no allocation.
`Object.assign({}, face, ...)` keeps `faceInViewConfidence` (and, in the
array branch, `annotations`) untouched. -/
def flipFaceHorizontal (face : AnnotatedPrediction) (imageWidth : ℚ)
    (s : TState) : AnnotatedPrediction × TState :=
  match face with
  | .tens f =>
    let r1 := s.alloc (⟨imageWidth - 1 - f.topLeft.val.x, f.topLeft.val.y⟩ : Point)
    let r2 := r1.2.alloc (⟨imageWidth - 1 - f.bottomRight.val.x, f.bottomRight.val.y⟩ : Point)
    let r3 := r2.2.alloc
      (f.mesh.val.map fun p => (⟨(imageWidth - 1 - p.x) * 1, (0 - p.y) * (-1)⟩ : Point))
    let r4 := r3.2.alloc
      (f.scaledMesh.val.map fun p => (⟨(imageWidth - 1 - p.x) * 1, (0 - p.y) * (-1)⟩ : Point))
    (.tens ⟨f.faceInViewConfidence, r1.1, r2.1, r3.1, r4.1⟩, r4.2)
  | .arr f =>
    (.arr ⟨f.faceInViewConfidence,
       ⟨imageWidth - 1 - f.topLeft.x, f.topLeft.y⟩,
       ⟨imageWidth - 1 - f.bottomRight.x, f.bottomRight.y⟩,
       f.mesh.map (fun coord => (⟨imageWidth - 1 - coord.x, coord.y⟩ : Point)),
       f.scaledMesh.map (fun coord => (⟨imageWidth - 1 - coord.x, coord.y⟩ : Point)),
       f.annotations⟩, s)

/-- The coordinate values carried by a result, forgetting whether they sit in
plain arrays or in buffers (and forgetting buffer identities). -/
structure FaceVals where
  conf : ℚ
  topLeft : Point
  bottomRight : Point
  mesh : List Point
  scaledMesh : List Point
deriving DecidableEq, Repr

/-- Read the coordinate values out of either variant of a result. -/
def faceValues : AnnotatedPrediction → FaceVals
  | .arr f => ⟨f.faceInViewConfidence, f.topLeft, f.bottomRight, f.mesh, f.scaledMesh⟩
  | .tens f => ⟨f.faceInViewConfidence.val, f.topLeft.val, f.bottomRight.val,
      f.mesh.val, f.scaledMesh.val⟩

theorem tensFlip_map_eq (W : ℚ) (l : List Point) :
    (l.map fun p => (⟨(W - 1 - p.x) * 1, (0 - p.y) * (-1)⟩ : Point))
      = l.map fun p => (⟨W - 1 - p.x, p.y⟩ : Point) := by
  induction l with
  | nil => rfl
  | cons a t ih =>
    simp only [List.map_cons, ih]
    congr 1
    ext <;> ring

theorem mirror_mirror (W : ℚ) (p : Point) :
    (⟨W - 1 - (W - 1 - p.x), p.y⟩ : Point) = p := by
  ext
  · ring
  · rfl

theorem mirror_map_mirror_map (W : ℚ) (l : List Point) :
    ((l.map fun p => (⟨W - 1 - p.x, p.y⟩ : Point)).map
        fun p => (⟨W - 1 - p.x, p.y⟩ : Point)) = l := by
  rw [List.map_map]
  have h : ((fun p => (⟨W - 1 - p.x, p.y⟩ : Point)) ∘
      fun p => (⟨W - 1 - p.x, p.y⟩ : Point)) = id := by
    funext p
    simp only [Function.comp_apply, id_eq]
    exact mirror_mirror W p
  rw [h, List.map_id]

theorem mirror_comp_map (W : ℚ) (l : List Point) :
    List.map ((fun p => (⟨W - 1 - p.x, p.y⟩ : Point)) ∘
      fun p => (⟨W - 1 - p.x, p.y⟩ : Point)) l = l := by
  rw [← List.map_map]
  exact mirror_map_mirror_map W l

/-- C1: for every result (plain-array-typed or buffer-typed) and every image
width `W`, `flipFaceHorizontal` maps each x-coordinate to `(W - 1) - x` and
leaves every y-coordinate unchanged, uniformly on both bounding-box corners,
every mesh point and every scaled-mesh point, and the array-typed and
buffer-typed branches compute the same coordinate values on equal inputs. -/
theorem flipFaceHorizontal_mirrors_x_preserves_y_variants_agree
    (W conf : ℚ) (tl br : Point) (mesh smesh : List Point)
    (i1 i2 i3 i4 i5 : Nat) (s t : TState) :
    faceValues (flipFaceHorizontal (.arr ⟨conf, tl, br, mesh, smesh, none⟩) W s).1
      = ⟨conf, ⟨W - 1 - tl.x, tl.y⟩, ⟨W - 1 - br.x, br.y⟩,
          mesh.map (fun p => (⟨W - 1 - p.x, p.y⟩ : Point)),
          smesh.map (fun p => (⟨W - 1 - p.x, p.y⟩ : Point))⟩
    ∧ faceValues (flipFaceHorizontal
          (.tens ⟨⟨i1, conf⟩, ⟨i2, tl⟩, ⟨i3, br⟩, ⟨i4, mesh⟩, ⟨i5, smesh⟩⟩) W t).1
      = faceValues (flipFaceHorizontal (.arr ⟨conf, tl, br, mesh, smesh, none⟩) W s).1 := by
  constructor
  · rfl
  · simp only [flipFaceHorizontal, faceValues, TState.alloc, tensFlip_map_eq]

/-- C4: applying the flip transform twice with the same width restores every
coordinate value exactly (hence in particular within floating tolerance), for
both variants, on all point sets (corners, mesh, scaled mesh). -/
theorem flipFaceHorizontal_twice_restores_values
    (W : ℚ) (face : AnnotatedPrediction) (s : TState) :
    faceValues (flipFaceHorizontal
        (flipFaceHorizontal face W s).1 W (flipFaceHorizontal face W s).2).1
      = faceValues face := by
  cases face with
  | arr f =>
    simp [flipFaceHorizontal, faceValues, mirror_mirror, mirror_comp_map]
  | tens f =>
    simp [flipFaceHorizontal, faceValues, TState.alloc, tensFlip_map_eq,
      mirror_mirror, mirror_comp_map]

/-- C9: the flip transform remaps each bounding-box corner's x independently
and never swaps or re-sorts the `topLeft` / `bottomRight` labels: the output's
`topLeft` is exactly the mirror of the input's `topLeft` and likewise for
`bottomRight`, for both variants; and concretely (width 10, corners (2,0) and
(8,5)) the mirrored `topLeft` x-coordinate 7 exceeds the mirrored
`bottomRight` x-coordinate 1 while the labels keep their per-corner images. -/
theorem flipFaceHorizontal_keeps_corner_labels
    (W : ℚ) (face : AnnotatedPrediction) (s : TState) :
    ((faceValues (flipFaceHorizontal face W s).1).topLeft
        = ⟨W - 1 - (faceValues face).topLeft.x, (faceValues face).topLeft.y⟩
      ∧ (faceValues (flipFaceHorizontal face W s).1).bottomRight
        = ⟨W - 1 - (faceValues face).bottomRight.x, (faceValues face).bottomRight.y⟩)
    ∧ ((faceValues (flipFaceHorizontal
            (.arr ⟨1, ⟨2, 0⟩, ⟨8, 5⟩, [], [], none⟩) 10 ⟨0, []⟩).1).topLeft = ⟨7, 0⟩
      ∧ (faceValues (flipFaceHorizontal
            (.arr ⟨1, ⟨2, 0⟩, ⟨8, 5⟩, [], [], none⟩) 10 ⟨0, []⟩).1).bottomRight = ⟨1, 5⟩
      ∧ (7 : ℚ) > 1) := by
  refine ⟨?_, by norm_num [flipFaceHorizontal, faceValues]⟩
  cases face <;> simp [flipFaceHorizontal, faceValues, TState.alloc]

/-- Modelled from the spec: the facade's ROI cache (`pipeline.ts` is not under
`src/`).  The spec says `clearTrackedROIs` makes the facade "discard its
cached ROI state", so the cache is kept as an abstract list of tracked
regions and clearing empties it. -/
structure Pipeline where
  rois : List (Point × Point)
deriving DecidableEq, Repr

/-- Modelled from the spec: `pipeline.clearROIs()` discards the tracked-ROI
state. -/
def Pipeline.clearROIs (_ : Pipeline) : Pipeline := ⟨[]⟩

/-- The `FaceMesh` facade state the orchestration layer touches: the pipeline
collaborator and the `detectionConfidence` threshold stored by `load`. -/
structure FaceMesh where
  pipeline : Pipeline
  detectionConfidence : ℚ
deriving DecidableEq, Repr

/-- Default `detectionConfidence` from `load` (`index.ts` line 106). -/
def defaultDetectionConfidence : ℚ := 9 / 10

/-- `FaceMesh.clearPipelineROIs` (`index.ts` lines 136-140): clear the
pipeline's ROIs exactly when `flag < this.detectionConfidence`. -/
def FaceMesh.clearPipelineROIs (fm : FaceMesh) (flag : ℚ) : FaceMesh :=
  if flag < fm.detectionConfidence then ⟨fm.pipeline.clearROIs, fm.detectionConfidence⟩
  else fm

/-- C2: `clearPipelineROIs` clears the tracked-ROI state exactly when the
confidence is strictly below the threshold and returns the facade untouched
otherwise; with the default threshold 0.9, confidence 0.89 clears while 0.90
and 0.91 leave the state untouched. -/
theorem clearPipelineROIs_strict_threshold (fm : FaceMesh) (c : ℚ) :
    ((fm.clearPipelineROIs c).pipeline.rois
        = if c < fm.detectionConfidence then [] else fm.pipeline.rois)
    ∧ (fm.detectionConfidence ≤ c → fm.clearPipelineROIs c = fm)
    ∧ (fm.detectionConfidence = defaultDetectionConfidence →
        (fm.clearPipelineROIs ((89 : ℚ) / 100)).pipeline.rois = []
        ∧ fm.clearPipelineROIs ((90 : ℚ) / 100) = fm
        ∧ fm.clearPipelineROIs ((91 : ℚ) / 100) = fm) := by
  refine ⟨?_, fun h => ?_, fun h => ⟨?_, ?_, ?_⟩⟩
  · by_cases hc : c < fm.detectionConfidence <;>
      simp [FaceMesh.clearPipelineROIs, Pipeline.clearROIs, hc]
  · simp [FaceMesh.clearPipelineROIs, not_lt.mpr h]
  · simp [FaceMesh.clearPipelineROIs, Pipeline.clearROIs, h,
      defaultDetectionConfidence, show (89 : ℚ) / 100 < 9 / 10 by norm_num]
  · simp [FaceMesh.clearPipelineROIs, h, defaultDetectionConfidence,
      show ¬ ((90 : ℚ) / 100 < 9 / 10) by norm_num]
  · simp [FaceMesh.clearPipelineROIs, h, defaultDetectionConfidence,
      show ¬ ((91 : ℚ) / 100 < 9 / 10) by norm_num]

/-- Witness for C2 at a concrete facade (one tracked ROI, threshold 0.9). -/
theorem clearPipelineROIs_strict_threshold_witness :
    ((FaceMesh.mk ⟨[(⟨0, 0⟩, ⟨5, 5⟩)]⟩ (9 / 10)).clearPipelineROIs
        ((89 : ℚ) / 100)).pipeline.rois = []
    ∧ (FaceMesh.mk ⟨[(⟨0, 0⟩, ⟨5, 5⟩)]⟩ (9 / 10)).clearPipelineROIs ((90 : ℚ) / 100)
        = FaceMesh.mk ⟨[(⟨0, 0⟩, ⟨5, 5⟩)]⟩ (9 / 10)
    ∧ (FaceMesh.mk ⟨[(⟨0, 0⟩, ⟨5, 5⟩)]⟩ (9 / 10)).clearPipelineROIs ((91 : ℚ) / 100)
        = FaceMesh.mk ⟨[(⟨0, 0⟩, ⟨5, 5⟩)]⟩ (9 / 10) :=
  (clearPipelineROIs_strict_threshold (FaceMesh.mk ⟨[(⟨0, 0⟩, ⟨5, 5⟩)]⟩ (9 / 10))
    ((89 : ℚ) / 100)).2.2 rfl

/-- The facade's per-face box of live corner buffers (`box.startPoint`,
`box.endPoint`). -/
structure BoxT where
  startPoint : Buf Point
  endPoint : Buf Point
deriving DecidableEq, Repr

/-- A `Prediction` as returned by `pipeline.predict` (`index.ts` line 164):
live buffers for the mesh, the scaled mesh, the box corners and the
confidence flag. -/
structure PredictionT where
  coords : Buf (List Point)
  scaledCoords : Buf (List Point)
  box : BoxT
  flag : Buf ℚ
deriving DecidableEq, Repr

/-- The `annotations` assembly loop (`index.ts` lines 222-231): for each table
key in order, map its index list over the materialized `scaledMesh`.  The
table itself (`MESH_ANNOTATIONS`, from `keypoints.ts`, not under `src/`) is
kept abstract as an ordered association list parameter; JS indexing out of
range yields `undefined`, modelled by the `getD` default. -/
def buildAnnotations (table : List (String × List Nat))
    (scaledMesh : List Point) : List (String × List Point) :=
  table.map fun kv => (kv.1, kv.2.map fun index => scaledMesh.getD index ⟨0, 0⟩)

/-- The `annotations` field of a result; the buffer-typed variant never
carries one. -/
def annotationsOf : AnnotatedPrediction → Option (List (String × List Point))
  | .arr f => f.annotations
  | .tens _ => none

/-- `annotatedPrediction['annotations'] = ...` (`index.ts` line 231); only the
array-typed variant has the field. -/
def withAnnotations : AnnotatedPrediction →
    Option (List (String × List Point)) → AnnotatedPrediction
  | .arr f, a => .arr ⟨f.faceInViewConfidence, f.topLeft, f.bottomRight,
      f.mesh, f.scaledMesh, a⟩
  | .tens f, _ => .tens f

/-- The scaled-mesh coordinate values of either variant. -/
def scaledMeshValsOf : AnnotatedPrediction → List Point
  | .arr f => f.scaledMesh
  | .tens f => f.scaledMesh.val

/-- The confidence buffer embedded in a buffer-typed result. -/
def confBufOf : AnnotatedPrediction → Option (Buf ℚ)
  | .arr _ => none
  | .tens f => some f.faceInViewConfidence

/-- The ids of the corner and mesh buffers embedded in a buffer-typed
result. -/
def tensBufIds : AnnotatedPrediction → List Nat
  | .arr _ => []
  | .tens f => [f.topLeft.id, f.bottomRight.id, f.mesh.id, f.scaledMesh.id]

/-- All buffer ids carried by one facade prediction. -/
def predBufIds (p : PredictionT) : List Nat :=
  [p.flag.id, p.coords.id, p.scaledCoords.id, p.box.startPoint.id, p.box.endPoint.id]

/-- The non-flag buffer ids of one facade prediction. -/
def nonFlagBufIds (p : PredictionT) : List Nat :=
  [p.coords.id, p.scaledCoords.id, p.box.startPoint.id, p.box.endPoint.id]

/-- An input image; only its dimensions matter to the layer under study. -/
structure Image where
  height : ℚ
  width : ℚ
deriving DecidableEq, Repr

/-- `estimateFaces`' input: either an already-constructed tensor or a pixel
source (ImageData / video / image / canvas). -/
inductive Input where
  | tensor : Buf Image → Input
  | pixels : Image → Input
deriving DecidableEq, Repr

/-- `getInputTensorDimensions` (`index.ts` lines 40-45): `[shape[0],
shape[1]]` for a tensor (height-major layout), `[height, width]` for a pixel
source. -/
def getInputTensorDimensions : Input → ℚ × ℚ
  | .tensor b => (b.val.height, b.val.width)
  | .pixels img => (img.height, img.width)

/-- The id of a caller-supplied input tensor, if any. -/
def inputTensorIds : Input → List Nat
  | .tensor b => [b.id]
  | .pixels _ => []

/-- Outcome of one `estimateFaces` call: either the async call rejects
(propagating the facade's failure, with the runtime state at that moment), or
it resolves with `null` or a list of results, the updated facade, and the
final runtime state. -/
inductive EstimateOutcome where
  | failure : TState → EstimateOutcome
  | success : Option (List AnnotatedPrediction) → FaceMesh → TState → EstimateOutcome
deriving DecidableEq, Repr

/-- The resolved value of an outcome (`none` if the call rejected). -/
def resultOf : EstimateOutcome → Option (Option (List AnnotatedPrediction))
  | .failure _ => none
  | .success r _ _ => some r

/-- The per-prediction body of `estimateFaces` (`index.ts` lines 163-234):
read the flag value, dispose the flag buffer, run the confidence-gated ROI
invalidation, then branch on `returnTensors`: either assemble the
buffer-typed result (flipping if requested), or dispose the mesh buffers,
assemble the array-typed result from the materialized values (flipping if
requested) and attach the `annotations` map built from its scaled mesh. -/
def processPrediction (table : List (String × List Nat)) (fm : FaceMesh)
    (width : ℚ) (returnTensors flipHorizontal : Bool) (p : PredictionT)
    (s : TState) : AnnotatedPrediction × FaceMesh × TState :=
  let flagValue := p.flag.val
  let s1 := s.dispose p.flag
  let fm1 := fm.clearPipelineROIs flagValue
  if returnTensors then
    let face0 : AnnotatedPrediction :=
      .tens ⟨p.flag, p.box.startPoint, p.box.endPoint, p.coords, p.scaledCoords⟩
    if flipHorizontal then
      let r := flipFaceHorizontal face0 width s1
      (r.1, fm1, r.2)
    else
      (face0, fm1, s1)
  else
    let s2 := s1.dispose p.scaledCoords
    let s3 := s2.dispose p.coords
    let face0 : AnnotatedPrediction :=
      .arr ⟨flagValue, p.box.startPoint.val, p.box.endPoint.val,
        p.coords.val, p.scaledCoords.val, none⟩
    let r := if flipHorizontal then flipFaceHorizontal face0 width s3 else (face0, s3)
    let face1 := withAnnotations r.1 (some (buildAnnotations table (scaledMeshValsOf r.1)))
    (face1, fm1, r.2)

/-- `predictions.map(...)` over the batch, threading the facade state and the
runtime state in facade order. -/
def processAll (table : List (String × List Nat)) (width : ℚ)
    (returnTensors flipHorizontal : Bool) :
    FaceMesh → List PredictionT → TState →
      List AnnotatedPrediction × FaceMesh × TState
  | fm, [], s => ([], fm, s)
  | fm, p :: ps, s =>
    let r := processPrediction table fm width returnTensors flipHorizontal p s
    let rest := processAll table width returnTensors flipHorizontal r.2.1 ps r.2.2
    (r.1 :: rest.1, rest.2.1, rest.2.2)

/-- `FaceMesh.estimateFaces` (`index.ts` lines 142-238).  A pixel-source input
is first converted to a tensor (`tf.browser.fromPixels`, a fresh buffer); the
width is read from the (tensor) input; `toFloat()` and `expandDims(0)` each
allocate a fresh buffer.  The facade's `predict` is the sole suspension
point: its outcome is a parameter (`Except`, `error` for a rejected promise,
`ok none` for a null batch).  On rejection the failure propagates uncaught —
in particular the `input.dispose()` / `inputToFloat.dispose()` calls sit
*after* the `await` (lines 154-157) and are then skipped.  On resolution the
two conversion buffers are disposed, then a null or empty batch yields
`null`, and a non-empty batch is mapped per-face in order. -/
def estimateFaces (table : List (String × List Nat)) (fm : FaceMesh)
    (input : Input) (predictOut : Except Unit (Option (List PredictionT)))
    (returnTensors flipHorizontal : Bool) (s : TState) : EstimateOutcome :=
  let r0 : Buf Image × TState :=
    match input with
    | .tensor b => (b, s)
    | .pixels img => s.alloc img
  let inputBuf := r0.1
  let width := (getInputTensorDimensions (.tensor inputBuf)).2
  let r1 := r0.2.alloc inputBuf.val
  let inputToFloat := r1.1
  let r2 := r1.2.alloc inputToFloat.val
  match predictOut with
  | .error _ => .failure r2.2
  | .ok preds =>
    let s4 := r2.2.dispose inputBuf
    let s5 := s4.dispose inputToFloat
    match preds with
    | none => .success none fm s5
    | some ps =>
      if ps.length ≠ 0 then
        let r := processAll table width returnTensors flipHorizontal fm ps s5
        .success (some r.1) r.2.1 r.2.2
      else
        .success none fm s5

/-- A default array-typed result, used only as the `getD` fallback. -/
def defaultFace : AnnotatedPrediction := .arr ⟨0, ⟨0, 0⟩, ⟨0, 0⟩, [], [], none⟩

/-- A default facade prediction, used only as the `getD` fallback. -/
def defaultPred : PredictionT :=
  ⟨⟨0, []⟩, ⟨0, []⟩, ⟨⟨0, ⟨0, 0⟩⟩, ⟨0, ⟨0, 0⟩⟩⟩, ⟨0, 0⟩⟩

/-- A concrete facade: one tracked ROI, detection confidence threshold 1
(an integer-valued rational, so concrete runs reduce by `decide`). -/
def sampleFaceMesh : FaceMesh := ⟨⟨[(⟨0, 0⟩, ⟨5, 5⟩)]⟩, 1⟩

/-- A concrete facade prediction: two mesh points, ids 10-14, flag value 95
(≥ the sample threshold, so the run does not clear ROIs). -/
def samplePrediction : PredictionT :=
  ⟨⟨10, [⟨1, 2⟩, ⟨3, 4⟩]⟩, ⟨11, [⟨5, 6⟩, ⟨7, 8⟩]⟩,
    ⟨⟨12, ⟨0, 1⟩⟩, ⟨13, ⟨9, 9⟩⟩⟩, ⟨14, 95⟩⟩

/-- A concrete two-key table standing for `MESH_ANNOTATIONS`. -/
def sampleTable : List (String × List Nat) :=
  [("lipsOuter", [0, 2]), ("leftEye", [1])]

/-- C3: whenever the facade yields zero predictions — a null batch or an
empty batch — `estimateFaces` resolves with `null`, never with an empty
sequence, for every facade, input, flag combination and runtime state. -/
theorem estimateFaces_null_on_empty_batch (table : List (String × List Nat))
    (fm : FaceMesh) (input : Input) (returnTensors flipHorizontal : Bool)
    (s : TState) :
    resultOf (estimateFaces table fm input (.ok none)
        returnTensors flipHorizontal s) = some none
    ∧ resultOf (estimateFaces table fm input (.ok (some []))
        returnTensors flipHorizontal s) = some none := by
  constructor <;> rfl

/-- C7 (code bug): the claim says the float-conversion buffer and the
raw-buffer conversion of the input are released on every path, including when
the facade's `predict` fails; in the code the two `dispose` calls (lines
156-157) sit after the awaited `predict` (line 154), so a rejected `predict`
skips them.  Concretely (100×100 pixel input, fresh ids from 50): on the
failure path nothing is disposed — ids 50 (pixel-to-tensor conversion) and 51
(float conversion) leak — while the same call with a resolving `predict`
disposes exactly ids 50 and 51. -/
theorem conversion_buffers_leak_when_predict_rejects :
    estimateFaces sampleTable sampleFaceMesh (.pixels ⟨100, 100⟩) (.error ())
        false false ⟨50, []⟩ = .failure ⟨53, []⟩
    ∧ estimateFaces sampleTable sampleFaceMesh (.pixels ⟨100, 100⟩) (.ok none)
        false false ⟨50, []⟩ = .success none sampleFaceMesh ⟨53, [51, 50]⟩ := by
  constructor <;> rfl

theorem buildAnnotations_getD_eq (sm : List Point) :
    ∀ (table : List (String × List Nat)) (i : Nat), i < table.length →
      (buildAnnotations table sm).getD i ("", [])
        = ((table.getD i ("", [])).1,
           (table.getD i ("", [])).2.map fun j => sm.getD j ⟨0, 0⟩) := by
  intro table
  induction table with
  | nil =>
    intro i h
    simp at h
  | cons kv rest ih =>
    intro i h
    cases i with
    | zero => simp [buildAnnotations]
    | succ n =>
      simp only [buildAnnotations, List.map_cons, List.getD_cons_succ] at ih ⊢
      exact ih n (by simpa using h)

/-- C5: for every materialized (array-typed) result the assembly loop
attaches the full table mapping computed from the result's own (post-flip)
scaled mesh; and for every table and scaled mesh, `buildAnnotations`
preserves the table's key order, has one entry per key, and the entry at
position `i` pairs the `i`-th key with the points selected by its index list
in order (so each value's length equals the index list's length and its
`j`-th point is the scaled-mesh entry at the `j`-th index). -/
theorem materialized_results_carry_full_table_mapping
    (table : List (String × List Nat)) (sm : List Point) (fm : FaceMesh)
    (width : ℚ) (fH : Bool) (p : PredictionT) (s : TState) :
    (annotationsOf (processPrediction table fm width false fH p s).1
        = some (buildAnnotations table
            (scaledMeshValsOf (processPrediction table fm width false fH p s).1)))
    ∧ (buildAnnotations table sm).map Prod.fst = table.map Prod.fst
    ∧ (buildAnnotations table sm).length = table.length
    ∧ ∀ i, i < table.length →
        (buildAnnotations table sm).getD i ("", [])
          = ((table.getD i ("", [])).1,
             (table.getD i ("", [])).2.map fun j => sm.getD j ⟨0, 0⟩)
        ∧ ((buildAnnotations table sm).getD i ("", [])).2.length
          = (table.getD i ("", [])).2.length := by
  refine ⟨?_, ?_, ?_, ?_⟩
  · cases fH <;>
      simp [processPrediction, withAnnotations, annotationsOf, scaledMeshValsOf,
        flipFaceHorizontal]
  · simp [buildAnnotations, List.map_map]
  · simp [buildAnnotations]
  · intro i h
    have hh := buildAnnotations_getD_eq sm table i h
    refine ⟨hh, ?_⟩
    rw [hh]
    simp

/-- Witness for C5 at the two-key sample table, a three-point scaled mesh and
index 0. -/
theorem materialized_results_carry_full_table_mapping_witness :
    ((buildAnnotations sampleTable [⟨1, 2⟩, ⟨3, 4⟩, ⟨5, 6⟩]).getD 0 ("", [])
      = ((sampleTable.getD 0 ("", [])).1,
         (sampleTable.getD 0 ("", [])).2.map fun j =>
           ([⟨1, 2⟩, ⟨3, 4⟩, ⟨5, 6⟩] : List Point).getD j ⟨0, 0⟩))
    ∧ ((buildAnnotations sampleTable [⟨1, 2⟩, ⟨3, 4⟩, ⟨5, 6⟩]).getD 0 ("", [])).2.length
      = (sampleTable.getD 0 ("", [])).2.length :=
  (materialized_results_carry_full_table_mapping sampleTable
    [⟨1, 2⟩, ⟨3, 4⟩, ⟨5, 6⟩] sampleFaceMesh 100 false samplePrediction
    ⟨50, []⟩).2.2.2 0 (by decide)

/-- The runtime state after the two conversion-buffer disposals on the
resolution path of `estimateFaces` (a description of the computation, used to
phrase inversion): the input conversion (fresh for a pixel source, the
caller's buffer for a tensor), the float conversion, and the batch expansion
have been allocated, and the first two disposed. -/
def afterDisposals : Input → TState → TState
  | .tensor b, s => ⟨s.nextId + 2, s.nextId :: b.id :: s.disposed⟩
  | .pixels _, s => ⟨s.nextId + 3, (s.nextId + 1) :: s.nextId :: s.disposed⟩

theorem estimateFaces_success_parts (table : List (String × List Nat))
    (fm : FaceMesh) (input : Input) (preds : List PredictionT)
    (rT fH : Bool) (s : TState) (hl : preds.length ≠ 0) :
    estimateFaces table fm input (.ok (some preds)) rT fH s
      = .success
          (some (processAll table (getInputTensorDimensions input).2 rT fH fm
            preds (afterDisposals input s)).1)
          (processAll table (getInputTensorDimensions input).2 rT fH fm preds
            (afterDisposals input s)).2.1
          (processAll table (getInputTensorDimensions input).2 rT fH fm preds
            (afterDisposals input s)).2.2 := by
  cases input <;>
    simp [estimateFaces, afterDisposals, getInputTensorDimensions,
      TState.alloc, TState.dispose, hl]

theorem processPrediction_tens_no_mapped_regions
    (table : List (String × List Nat)) (fm : FaceMesh) (width : ℚ) (fH : Bool)
    (p : PredictionT) (s : TState) :
    annotationsOf (processPrediction table fm width true fH p s).1 = none := by
  cases fH <;> simp [processPrediction, flipFaceHorizontal, annotationsOf]

theorem processAll_tens_no_mapped_regions (table : List (String × List Nat))
    (width : ℚ) (fH : Bool) :
    ∀ (ps : List PredictionT) (fm : FaceMesh) (s : TState),
      ∀ r ∈ (processAll table width true fH fm ps s).1, annotationsOf r = none := by
  intro ps
  induction ps with
  | nil =>
    intro fm s r hr
    simp [processAll] at hr
  | cons p t ih =>
    intro fm s r hr
    simp only [processAll, List.mem_cons] at hr
    rcases hr with h1 | h2
    · rw [h1]
      exact processPrediction_tens_no_mapped_regions table fm width fH p s
    · exact ih _ _ r h2

/-- C6: for every call of `estimateFaces` requesting raw buffers
(`returnTensors = true`) that resolves with a list of results, no element of
that list carries an `annotations` field. -/
theorem raw_buffer_results_omit_mapped_regions
    (table : List (String × List Nat)) (fm : FaceMesh) (input : Input)
    (preds : List PredictionT) (flipHorizontal : Bool) (s : TState)
    (rs : List AnnotatedPrediction) (fm2 : FaceMesh) (s2 : TState)
    (h : estimateFaces table fm input (.ok (some preds)) true flipHorizontal s
        = .success (some rs) fm2 s2) :
    ∀ r ∈ rs, annotationsOf r = none := by
  by_cases hl : preds.length = 0
  · cases input <;> simp [estimateFaces, hl] at h
  · rw [estimateFaces_success_parts table fm input preds true flipHorizontal s hl] at h
    simp only [EstimateOutcome.success.injEq, Option.some.injEq] at h
    obtain ⟨hrs, -, -⟩ := h
    rw [← hrs]
    exact processAll_tens_no_mapped_regions _ _ _ preds fm _

/-- Witness for C6: a concrete one-face raw-buffer call resolves with a
single buffer-typed result carrying no `annotations` field. -/
theorem raw_buffer_results_omit_mapped_regions_witness :
    annotationsOf (AnnotatedPrediction.tens ⟨⟨14, 95⟩, ⟨12, ⟨0, 1⟩⟩, ⟨13, ⟨9, 9⟩⟩,
        ⟨10, [⟨1, 2⟩, ⟨3, 4⟩]⟩, ⟨11, [⟨5, 6⟩, ⟨7, 8⟩]⟩⟩) = none :=
  raw_buffer_results_omit_mapped_regions sampleTable sampleFaceMesh
    (.pixels ⟨100, 100⟩) [samplePrediction] false ⟨50, []⟩ _ sampleFaceMesh
    ⟨53, [14, 51, 50]⟩ rfl
    (AnnotatedPrediction.tens ⟨⟨14, 95⟩, ⟨12, ⟨0, 1⟩⟩, ⟨13, ⟨9, 9⟩⟩,
      ⟨10, [⟨1, 2⟩, ⟨3, 4⟩]⟩, ⟨11, [⟨5, 6⟩, ⟨7, 8⟩]⟩⟩) (by decide)

/-- Mirror all coordinate values about the vertical line at width `W`. -/
def mirrorVals (W : ℚ) (v : FaceVals) : FaceVals :=
  ⟨v.conf, ⟨W - 1 - v.topLeft.x, v.topLeft.y⟩,
    ⟨W - 1 - v.bottomRight.x, v.bottomRight.y⟩,
    v.mesh.map (fun p => (⟨W - 1 - p.x, p.y⟩ : Point)),
    v.scaledMesh.map fun p => (⟨W - 1 - p.x, p.y⟩ : Point)⟩

/-- The coordinate values a result assembled from one facade prediction is
expected to carry: the prediction's own values, mirrored when a flip was
requested.  Independent of `returnTensors`. -/
def predAssembledValues (W : ℚ) (fH : Bool) (p : PredictionT) : FaceVals :=
  if fH then
    mirrorVals W ⟨p.flag.val, p.box.startPoint.val, p.box.endPoint.val,
      p.coords.val, p.scaledCoords.val⟩
  else
    ⟨p.flag.val, p.box.startPoint.val, p.box.endPoint.val,
      p.coords.val, p.scaledCoords.val⟩

theorem faceValues_processPrediction (table : List (String × List Nat))
    (fm : FaceMesh) (w : ℚ) (rT fH : Bool) (p : PredictionT) (s : TState) :
    faceValues (processPrediction table fm w rT fH p s).1
      = predAssembledValues w fH p := by
  cases rT <;> cases fH <;>
    simp [processPrediction, predAssembledValues, mirrorVals, faceValues,
      flipFaceHorizontal, withAnnotations, scaledMeshValsOf, TState.alloc,
      tensFlip_map_eq]

theorem processAll_length (table : List (String × List Nat)) (w : ℚ)
    (rT fH : Bool) :
    ∀ (ps : List PredictionT) (fm : FaceMesh) (s : TState),
      (processAll table w rT fH fm ps s).1.length = ps.length := by
  intro ps
  induction ps with
  | nil =>
    intro fm s
    rfl
  | cons p t ih =>
    intro fm s
    simp [processAll, ih]

theorem processAll_getD_values (table : List (String × List Nat)) (w : ℚ)
    (rT fH : Bool) :
    ∀ (ps : List PredictionT) (fm : FaceMesh) (s : TState) (i : Nat),
      i < ps.length →
      faceValues ((processAll table w rT fH fm ps s).1.getD i defaultFace)
        = predAssembledValues w fH (ps.getD i defaultPred) := by
  intro ps
  induction ps with
  | nil =>
    intro fm s i h
    simp at h
  | cons p t ih =>
    intro fm s i h
    cases i with
    | zero =>
      simp only [processAll, List.getD_cons_zero]
      exact faceValues_processPrediction table fm w rT fH p s
    | succ n =>
      simp only [processAll, List.getD_cons_succ]
      exact ih _ _ n (by simpa using h)

/-- C8: whenever `estimateFaces` resolves with a result list for a facade
batch, the list has one result per prediction and the result at position `i`
carries exactly the coordinate values assembled from the facade's prediction
at position `i` (mirrored iff a flip was requested) — the facade's per-face
order is preserved, for every batch size including 0 (covered by the `null`
result of C3's theorem), 1 and 3. -/
theorem estimateFaces_preserves_facade_order
    (table : List (String × List Nat)) (fm : FaceMesh) (input : Input)
    (preds : List PredictionT) (returnTensors flipHorizontal : Bool)
    (s : TState) (rs : List AnnotatedPrediction) (fm2 : FaceMesh) (s2 : TState)
    (h : estimateFaces table fm input (.ok (some preds)) returnTensors
        flipHorizontal s = .success (some rs) fm2 s2) :
    rs.length = preds.length
    ∧ ∀ i, i < preds.length →
        faceValues (rs.getD i defaultFace)
          = predAssembledValues (getInputTensorDimensions input).2
              flipHorizontal (preds.getD i defaultPred) := by
  by_cases hl : preds.length = 0
  · cases input <;> simp [estimateFaces, hl] at h
  · rw [estimateFaces_success_parts table fm input preds returnTensors
      flipHorizontal s hl] at h
    simp only [EstimateOutcome.success.injEq, Option.some.injEq] at h
    obtain ⟨hrs, -, -⟩ := h
    rw [← hrs]
    exact ⟨processAll_length table _ returnTensors flipHorizontal preds fm _,
      fun i hi => processAll_getD_values table _ returnTensors flipHorizontal
        preds fm _ i hi⟩

/-- A second concrete facade prediction (ids 20-24). -/
def samplePrediction2 : PredictionT :=
  ⟨⟨20, [⟨2, 3⟩]⟩, ⟨21, [⟨4, 5⟩]⟩, ⟨⟨22, ⟨1, 1⟩⟩, ⟨23, ⟨8, 8⟩⟩⟩, ⟨24, 97⟩⟩

/-- A third concrete facade prediction (ids 30-34). -/
def samplePrediction3 : PredictionT :=
  ⟨⟨30, [⟨6, 7⟩]⟩, ⟨31, [⟨8, 9⟩]⟩, ⟨⟨32, ⟨2, 2⟩⟩, ⟨33, ⟨7, 7⟩⟩⟩, ⟨34, 99⟩⟩

/-- Witness for C8: a concrete three-face batch, middle position. -/
theorem estimateFaces_preserves_facade_order_witness :
    faceValues ((processAll sampleTable 100 false false sampleFaceMesh
        [samplePrediction, samplePrediction2, samplePrediction3]
        ⟨53, [51, 50]⟩).1.getD 1 defaultFace)
      = predAssembledValues 100 false
          ([samplePrediction, samplePrediction2, samplePrediction3].getD 1
            defaultPred) :=
  (estimateFaces_preserves_facade_order sampleTable sampleFaceMesh
    (.pixels ⟨100, 100⟩) [samplePrediction, samplePrediction2, samplePrediction3]
    false false ⟨50, []⟩ _ _ _ rfl).2 1 (by decide)

/-- Well-formedness of a raw-buffer call, reflecting what the tensor runtime
guarantees: all facade prediction buffers are distinct live allocations (ids
below the allocator's next id and not yet disposed), no non-flag buffer
aliases any flag buffer, a caller-supplied input tensor is a live allocation
aliasing no non-flag prediction buffer, and everything disposed so far was
allocated. -/
def CallBuffersFresh (input : Input) (preds : List PredictionT)
    (s : TState) : Prop :=
  (∀ p ∈ preds, ∀ b ∈ predBufIds p, b < s.nextId ∧ b ∉ s.disposed)
  ∧ (∀ p ∈ preds, ∀ q ∈ preds, ∀ b ∈ nonFlagBufIds p, b ≠ q.flag.id)
  ∧ (∀ t ∈ inputTensorIds input, t < s.nextId
      ∧ ∀ p ∈ preds, ∀ b ∈ nonFlagBufIds p, b ≠ t)
  ∧ (∀ d ∈ s.disposed, d < s.nextId)

instance (input : Input) (preds : List PredictionT) (s : TState) :
    Decidable (CallBuffersFresh input preds s) := by
  unfold CallBuffersFresh
  infer_instance

theorem afterDisposals_nextId_le (input : Input) (s : TState) :
    s.nextId ≤ (afterDisposals input s).nextId := by
  cases input <;> simp [afterDisposals]

theorem afterDisposals_disposed_cases (input : Input) (s : TState) (d : Nat)
    (hd : d ∈ (afterDisposals input s).disposed) :
    d ∈ s.disposed ∨ s.nextId ≤ d ∨ d ∈ inputTensorIds input := by
  cases input with
  | tensor b =>
    simp only [afterDisposals, inputTensorIds, List.mem_cons,
      List.mem_singleton] at hd ⊢
    rcases hd with h | h | h
    · right
      left
      omega
    · tauto
    · tauto
  | pixels img =>
    simp only [afterDisposals, inputTensorIds, List.mem_cons,
      List.not_mem_nil, or_false] at hd ⊢
    rcases hd with h | h | h
    · right
      omega
    · right
      omega
    · tauto

theorem afterDisposals_disposed_lt (input : Input) (s : TState)
    (hin : ∀ t ∈ inputTensorIds input, t < s.nextId)
    (hdis : ∀ d ∈ s.disposed, d < s.nextId) :
    ∀ d ∈ (afterDisposals input s).disposed, d < (afterDisposals input s).nextId := by
  intro d hd
  cases input with
  | tensor b =>
    simp [afterDisposals, inputTensorIds] at hd hin ⊢
    rcases hd with h | h | h
    · omega
    · omega
    · exact lt_of_lt_of_le (hdis d h) (by omega)
  | pixels img =>
    simp [afterDisposals] at hd ⊢
    rcases hd with h | h | h
    · omega
    · omega
    · exact lt_of_lt_of_le (hdis d h) (by omega)

theorem processPrediction_tens_buffers (table : List (String × List Nat))
    (fm : FaceMesh) (w : ℚ) (fH : Bool) (p : PredictionT) (s : TState) :
    (processPrediction table fm w true fH p s).2.2.disposed
        = p.flag.id :: s.disposed
    ∧ s.nextId ≤ (processPrediction table fm w true fH p s).2.2.nextId
    ∧ confBufOf (processPrediction table fm w true fH p s).1 = some p.flag
    ∧ ∀ b ∈ tensBufIds (processPrediction table fm w true fH p s).1,
        b ∈ nonFlagBufIds p ∨ s.nextId ≤ b := by
  cases fH with
  | false =>
    refine ⟨rfl, le_refl _, rfl, ?_⟩
    intro b hb
    left
    simp [processPrediction, tensBufIds] at hb
    simp [nonFlagBufIds]
    tauto
  | true =>
    refine ⟨rfl, ?_, rfl, ?_⟩
    · show s.nextId ≤ s.nextId + 1 + 1 + 1 + 1
      omega
    · intro b hb
      right
      have hb2 : b = s.nextId ∨ b = s.nextId + 1 ∨ b = s.nextId + 1 + 1
          ∨ b = s.nextId + 1 + 1 + 1 := by
        simpa [processPrediction, flipFaceHorizontal, TState.alloc,
          TState.dispose, tensBufIds] using hb
      omega

theorem processAll_tens_buffers (table : List (String × List Nat)) (w : ℚ)
    (fH : Bool) :
    ∀ (ps : List PredictionT) (fm : FaceMesh) (s : TState),
      s.nextId ≤ (processAll table w true fH fm ps s).2.2.nextId
      ∧ (∀ d, d ∈ (processAll table w true fH fm ps s).2.2.disposed ↔
          ((d ∈ ps.map fun p => p.flag.id) ∨ d ∈ s.disposed))
      ∧ (∀ i, i < ps.length →
          confBufOf ((processAll table w true fH fm ps s).1.getD i defaultFace)
            = some (ps.getD i defaultPred).flag
          ∧ ∀ b ∈ tensBufIds
              ((processAll table w true fH fm ps s).1.getD i defaultFace),
              b ∈ nonFlagBufIds (ps.getD i defaultPred) ∨ s.nextId ≤ b) := by
  intro ps
  induction ps with
  | nil =>
    intro fm s
    refine ⟨le_refl _, fun d => by simp [processAll], fun i h => by simp at h⟩
  | cons p t ih =>
    intro fm s
    obtain ⟨hd, hnext, hconf, hbufs⟩ :=
      processPrediction_tens_buffers table fm w fH p s
    obtain ⟨ihnext, ihdisp, ihidx⟩ :=
      ih (processPrediction table fm w true fH p s).2.1
        (processPrediction table fm w true fH p s).2.2
    refine ⟨le_trans hnext ihnext, ?_, ?_⟩
    · intro d
      rw [show (processAll table w true fH fm (p :: t) s).2.2
            = (processAll table w true fH
                (processPrediction table fm w true fH p s).2.1 t
                (processPrediction table fm w true fH p s).2.2).2.2 from rfl,
        ihdisp d, hd]
      simp only [List.map_cons, List.mem_cons]
      tauto
    · intro i hi
      cases i with
      | zero =>
        refine ⟨?_, ?_⟩
        · rw [show (processAll table w true fH fm (p :: t) s).1.getD 0 defaultFace
              = (processPrediction table fm w true fH p s).1 from rfl]
          exact hconf
        · rw [show (processAll table w true fH fm (p :: t) s).1.getD 0 defaultFace
              = (processPrediction table fm w true fH p s).1 from rfl]
          exact hbufs
      | succ n =>
        have hn : n < t.length := by simpa using hi
        obtain ⟨c1, c2⟩ := ihidx n hn
        refine ⟨?_, ?_⟩
        · rw [show (processAll table w true fH fm (p :: t) s).1.getD (n + 1) defaultFace
              = (processAll table w true fH
                  (processPrediction table fm w true fH p s).2.1 t
                  (processPrediction table fm w true fH p s).2.2).1.getD n defaultFace
              from rfl]
          exact c1
        · rw [show (processAll table w true fH fm (p :: t) s).1.getD (n + 1) defaultFace
              = (processAll table w true fH
                  (processPrediction table fm w true fH p s).2.1 t
                  (processPrediction table fm w true fH p s).2.2).1.getD n defaultFace
              from rfl]
          intro b hb
          rcases c2 b hb with hleft | hright
          · exact Or.inl hleft
          · exact Or.inr (le_trans hnext hright)

/-- C10: for every raw-buffer call (`returnTensors = true`) that resolves,
the `faceInViewConfidence` field of result `i` is literally the facade's flag
buffer for prediction `i`, whose `dispose` has already been invoked by the
time the call returns, while the corner and mesh buffers embedded in the
result are never disposed (they stay live), given distinct live facade
buffers. -/
theorem raw_buffer_flag_disposed_before_return
    (table : List (String × List Nat)) (fm : FaceMesh) (input : Input)
    (preds : List PredictionT) (flipHorizontal : Bool) (s : TState)
    (rs : List AnnotatedPrediction) (fm2 : FaceMesh) (s2 : TState)
    (hwf : CallBuffersFresh input preds s)
    (h : estimateFaces table fm input (.ok (some preds)) true flipHorizontal s
        = .success (some rs) fm2 s2) :
    ∀ i, i < preds.length →
      confBufOf (rs.getD i defaultFace) = some (preds.getD i defaultPred).flag
      ∧ (preds.getD i defaultPred).flag.id ∈ s2.disposed
      ∧ ∀ b ∈ tensBufIds (rs.getD i defaultFace), b ∉ s2.disposed := by
  obtain ⟨hlive, hnoalias, hinput, hdis⟩ := hwf
  by_cases hl : preds.length = 0
  · cases input <;> simp [estimateFaces, hl] at h
  · rw [estimateFaces_success_parts table fm input preds true flipHorizontal s hl] at h
    simp only [EstimateOutcome.success.injEq, Option.some.injEq] at h
    obtain ⟨hrs, -, hs2⟩ := h
    obtain ⟨anext, adisp, aidx⟩ :=
      processAll_tens_buffers table (getInputTensorDimensions input).2
        flipHorizontal preds fm (afterDisposals input s)
    intro i hi
    have hpmem : preds.getD i defaultPred ∈ preds := by
      rw [List.getD_eq_getElem preds defaultPred hi]
      exact List.getElem_mem hi
    obtain ⟨cconf, cbufs⟩ := aidx i hi
    rw [← hrs, ← hs2]
    refine ⟨cconf, ?_, ?_⟩
    · rw [adisp]
      exact Or.inl (List.mem_map.mpr ⟨preds.getD i defaultPred, hpmem, rfl⟩)
    · intro b hb
      rw [adisp]
      rintro (hflag | hafter)
      · -- b would be some prediction's flag buffer
        obtain ⟨q, hq, hqb⟩ := List.mem_map.mp hflag
        rcases cbufs b hb with hnon | hge
        · exact hnoalias (preds.getD i defaultPred) hpmem q hq b hnon hqb.symm
        · have : q.flag.id < s.nextId :=
            (hlive q hq q.flag.id (by simp [predBufIds])).1
          have hle := afterDisposals_nextId_le input s
          omega
      · -- b would be among the buffers disposed before the batch
        rcases cbufs b hb with hnon | hge
        · rcases afterDisposals_disposed_cases input s b hafter with hb1 | hb2 | hb3
          · have := (hlive (preds.getD i defaultPred) hpmem b
              (by simp [predBufIds, nonFlagBufIds] at hnon ⊢; tauto)).2
            exact this hb1
          · have : b < s.nextId :=
              (hlive (preds.getD i defaultPred) hpmem b
                (by simp [predBufIds, nonFlagBufIds] at hnon ⊢; tauto)).1
            omega
          · exact (hinput b hb3).2 (preds.getD i defaultPred) hpmem b hnon rfl
        · have := afterDisposals_disposed_lt input s
            (fun t ht => (hinput t ht).1) hdis b hafter
          omega

/-- Witness for C10: the concrete one-face raw-buffer run; the returned
result's confidence buffer is the facade's flag buffer (id 14), id 14 is in
the disposed list at return, and the embedded corner buffer id 12 is not. -/
theorem raw_buffer_flag_disposed_before_return_witness :
    confBufOf (([AnnotatedPrediction.tens ⟨⟨14, 95⟩, ⟨12, ⟨0, 1⟩⟩, ⟨13, ⟨9, 9⟩⟩,
          ⟨10, [⟨1, 2⟩, ⟨3, 4⟩]⟩, ⟨11, [⟨5, 6⟩, ⟨7, 8⟩]⟩⟩]).getD 0 defaultFace)
        = some ([samplePrediction].getD 0 defaultPred).flag
    ∧ ([samplePrediction].getD 0 defaultPred).flag.id
        ∈ (⟨53, [14, 51, 50]⟩ : TState).disposed
    ∧ (12 : Nat) ∉ (⟨53, [14, 51, 50]⟩ : TState).disposed := by
  have h := raw_buffer_flag_disposed_before_return sampleTable sampleFaceMesh
    (.pixels ⟨100, 100⟩) [samplePrediction] false ⟨50, []⟩
    [AnnotatedPrediction.tens ⟨⟨14, 95⟩, ⟨12, ⟨0, 1⟩⟩, ⟨13, ⟨9, 9⟩⟩,
      ⟨10, [⟨1, 2⟩, ⟨3, 4⟩]⟩, ⟨11, [⟨5, 6⟩, ⟨7, 8⟩]⟩⟩]
    sampleFaceMesh ⟨53, [14, 51, 50]⟩ (by decide) rfl 0 (by decide)
  exact ⟨h.1, h.2.1, h.2.2 12 (by decide)⟩

end Facemesh
